import Mathlib

/-!
Verification of the configuration normalization pipeline of easy_proxies,
shallowly embedded from src/internal/config/config.go.

Modelling choices:
* Go uint16 arithmetic on the per-node port cursor is modelled on Nat with an
  explicit reduction modulo 2 ^ 16 at the one point where the Go code
  increments a uint16 value.
* time.Duration (int64 nanoseconds) and Go int are modelled as Int.
* External collaborators are passed as parameters: `fs` maps a path to file
  contents (none = read failure), `parse` maps a URI string to the Fragment
  field of the parsed URL (none = parse failure), and `unescape` models
  url.QueryUnescape (none = decode failure).
* The Go standard-library string helpers used by the code (strings.TrimSpace,
  strings.Split on a newline, strings.HasPrefix with a hash) are translated
  directly below so that every definition evaluates inside the kernel.
-/

namespace EasyProxies

/-- Whitespace recognized by strings.TrimSpace (the ASCII white space
characters plus the two Latin-1 ones; no other character class is exercised
anywhere in this development). -/
def goIsSpace (c : Char) : Bool :=
  c == ' ' || c == '\t' || c == '\n' || c == '\x0b' || c == '\x0c' || c == '\r' ||
    c == '\x85' || c == '\xa0'

/-- strings.TrimSpace: drop leading and trailing whitespace. -/
def trimSpace (s : String) : String :=
  String.mk (((s.data.dropWhile goIsSpace).reverse.dropWhile goIsSpace).reverse)

/-- strings.HasPrefix line "#". -/
def hashPrefixed (s : String) : Bool :=
  match s.data with
  | [] => false
  | c :: _ => c == '#'

/-- Accumulator loop of strings.Split on a newline separator. -/
def splitNlGo : List Char → List Char → List String
  | acc, [] => [String.mk acc.reverse]
  | acc, c :: rest =>
    if c == '\n' then String.mk acc.reverse :: splitNlGo [] rest
    else splitNlGo (c :: acc) rest

/-- strings.Split s "\n". -/
def splitNl (s : String) : List String :=
  splitNlGo [] s.data

/-- ListenerConfig from config.go. -/
structure ListenerConfig where
  Address : String
  Port : Nat
  Username : String
  Password : String
deriving DecidableEq

/-- PoolConfig from config.go (FailureThreshold is a Go int, BlacklistDuration
a time.Duration in nanoseconds). -/
structure PoolConfig where
  Mode : String
  FailureThreshold : Int
  BlacklistDuration : Int
deriving DecidableEq

/-- MultiPortConfig from config.go. -/
structure MultiPortConfig where
  Address : String
  BasePort : Nat
  Username : String
  Password : String
deriving DecidableEq

/-- ManagementConfig from config.go (Enabled is a nullable bool). -/
structure ManagementConfig where
  Enabled : Option Bool
  Listen : String
  ProbeTarget : String
deriving DecidableEq

/-- NodeConfig from config.go. -/
structure NodeConfig where
  Name : String
  URI : String
  Port : Nat
  Username : String
  Password : String
deriving DecidableEq

/-- Config from config.go. -/
structure Config where
  Mode : String
  Listener : ListenerConfig
  MultiPort : MultiPortConfig
  Pool : PoolConfig
  Management : ManagementConfig
  Nodes : List NodeConfig
  NodesFile : String
  LogLevel : String
deriving DecidableEq

/-- A line survives the loadNodesFromFile loop when, after trimming, it is
neither empty nor a hash comment. -/
def keepLine (l : String) : Bool :=
  !(l == "" || hashPrefixed l)

/-- The descriptor built from one kept line: only URI is set, Name and Port
are left for normalize to fill in. -/
def mkDescriptor (l : String) : NodeConfig :=
  { Name := "", URI := l, Port := 0, Username := "", Password := "" }

/-- The line loop of loadNodesFromFile. -/
def parseLines : List String → List NodeConfig
  | [] => []
  | line :: rest =>
    if keepLine (trimSpace line) then mkDescriptor (trimSpace line) :: parseLines rest
    else parseLines rest

/-- loadNodesFromFile: read the file at `path` (through the abstract file
system `fs`) and turn each kept line into a descriptor. -/
def loadNodesFromFile (fs : String → Option String) (path : String) :
    Except String (List NodeConfig) :=
  match fs path with
  | none => .error ("read nodes file: " ++ path)
  | some data => .ok (parseLines (splitNl data))

/-- Mode defaulting, alias rewriting and validation, lines 82-93 of
config.go: the empty mode becomes pool, the multi_port alias becomes
multi-port, anything else outside the two canonical values is rejected with a
message naming it (the Go message quotes the value with the %q verb; the
quoting characters are elided here). -/
def normalizeMode (m : String) : Except String String :=
  if m = "" then .ok "pool"
  else if m = "multi_port" then .ok "multi-port"
  else if m = "pool" ∨ m = "multi-port" then .ok m
  else .error ("unsupported mode " ++ m ++ " (use pool or multi-port)")

/-- Listener defaults, lines 94-99 of config.go. -/
def resolveListener (l : ListenerConfig) : ListenerConfig :=
  { l with
    Address := if l.Address = "" then "0.0.0.0" else l.Address
    Port := if l.Port = 0 then 2323 else l.Port }

/-- Pool defaults, lines 100-108 of config.go (24h = 86400000000000 ns). -/
def resolvePool (p : PoolConfig) : PoolConfig :=
  { Mode := if p.Mode = "" then "sequential" else p.Mode
    FailureThreshold := if p.FailureThreshold ≤ 0 then 3 else p.FailureThreshold
    BlacklistDuration := if p.BlacklistDuration ≤ 0 then 86400000000000 else p.BlacklistDuration }

/-- Multi-port defaults, lines 109-114 of config.go. -/
def resolveMultiPort (m : MultiPortConfig) : MultiPortConfig :=
  { m with
    Address := if m.Address = "" then "0.0.0.0" else m.Address
    BasePort := if m.BasePort = 0 then 28000 else m.BasePort }

/-- Management defaults, lines 115-124 of config.go. -/
def resolveManagement (m : ManagementConfig) : ManagementConfig :=
  { Enabled := match m.Enabled with
      | none => some true
      | some b => some b
    Listen := if m.Listen = "" then "127.0.0.1:9090" else m.Listen
    ProbeTarget := if m.ProbeTarget = "" then "www.apple.com:80" else m.ProbeTarget }

/-- The fragment-derived candidate name, lines 150-157 of config.go: empty
when the URI does not parse, when the fragment is empty; otherwise the
unescaped fragment, or the raw fragment when unescaping fails. -/
def fragmentName (parse unescape : String → Option String) (uri : String) : String :=
  match parse uri with
  | none => ""
  | some frag =>
    if frag = "" then ""
    else
      match unescape frag with
      | some d => d
      | none => frag

/-- Name derivation for one node, lines 148-163 of config.go, applied to the
raw configured name and the already-trimmed URI. -/
def nodeName (parse unescape : String → Option String) (rawName uri : String) (idx : Nat) :
    String :=
  if trimSpace rawName = "" then
    if fragmentName parse unescape uri = "" then "node-" ++ toString idx
    else fragmentName parse unescape uri
  else trimSpace rawName

/-- The per-node mutation of the loop body, lines 141-176 of config.go, for a
node whose URI check already passed. -/
def resolveNode (parse unescape : String → Option String) (mode : String)
    (mp : MultiPortConfig) (idx cursor : Nat) (n : NodeConfig) : NodeConfig :=
  { Name := nodeName parse unescape n.Name (trimSpace n.URI) idx
    URI := trimSpace n.URI
    Port := if n.Port = 0 then cursor else n.Port
    Username := if mode = "multi-port" ∧ n.Username = "" then mp.Username else n.Username
    Password := if mode = "multi-port" ∧ n.Username = "" then mp.Password else n.Password }

/-- The port cursor after one node: incremented (as a uint16, hence modulo
2 ^ 16) exactly when the node had port zero, lines 166-169 of config.go. -/
def nextCursor (cursor : Nat) (n : NodeConfig) : Nat :=
  if n.Port = 0 then (cursor + 1) % 65536 else cursor

/-- One iteration of the node loop: fail when the trimmed URI is empty,
otherwise produce the mutated node and the advanced cursor. -/
def normNode (parse unescape : String → Option String) (mode : String)
    (mp : MultiPortConfig) (idx cursor : Nat) (n : NodeConfig) :
    Except String (NodeConfig × Nat) :=
  if trimSpace n.URI = "" then .error ("node " ++ toString idx ++ " is missing uri")
  else .ok (resolveNode parse unescape mode mp idx cursor n, nextCursor cursor n)

/-- The node loop of normalize, lines 140-177 of config.go, carrying the
running index and port cursor. -/
def normalizeNodesFrom (parse unescape : String → Option String) (mode : String)
    (mp : MultiPortConfig) : Nat → Nat → List NodeConfig → Except String (List NodeConfig)
  | _, _, [] => .ok []
  | idx, cursor, n :: rest =>
    match normNode parse unescape mode mp idx cursor n with
    | .error e => .error e
    | .ok (n', cursor') =>
      match normalizeNodesFrom parse unescape mode mp (idx + 1) cursor' rest with
      | .error e => .error e
      | .ok rest' => .ok (n' :: rest')

/-- Node-source merge, lines 127-134 of config.go: when a nodes file is
configured, its descriptors are appended after the inline ones. -/
def mergeNodes (fs : String → Option String) (c : Config) : Except String (List NodeConfig) :=
  if c.NodesFile ≠ "" then
    match loadNodesFromFile fs c.NodesFile with
    | .error e => .error ("load nodes from file " ++ c.NodesFile ++ ": " ++ e)
    | .ok fileNodes => .ok (c.Nodes ++ fileNodes)
  else .ok c.Nodes

/-- The empty-merged-list error of line 137 of config.go. -/
def emptyNodesErr : String :=
  "config.nodes cannot be empty (configure nodes in config or use nodes_file)"

/-- normalize, lines 81-182 of config.go. -/
def normalize (fs parse unescape : String → Option String) (c : Config) :
    Except String Config :=
  match normalizeMode c.Mode with
  | .error e => .error e
  | .ok mode =>
    match mergeNodes fs c with
    | .error e => .error e
    | .ok merged =>
      if merged = [] then .error emptyNodesErr
      else
        match normalizeNodesFrom parse unescape mode (resolveMultiPort c.MultiPort) 0
            (resolveMultiPort c.MultiPort).BasePort merged with
        | .error e => .error e
        | .ok nodes =>
          .ok { Mode := mode
                Listener := resolveListener c.Listener
                MultiPort := resolveMultiPort c.MultiPort
                Pool := resolvePool c.Pool
                Management := resolveManagement c.Management
                Nodes := nodes
                NodesFile := c.NodesFile
                LogLevel := if c.LogLevel = "" then "info" else c.LogLevel }

/-- ManagementEnabled, lines 185-190 of config.go. -/
def ManagementEnabled (c : Config) : Bool :=
  match c.Management.Enabled with
  | none => true
  | some b => b

/-- The ResolvedConfig invariant stated by the specification: canonical mode,
non-empty node list, every node named, addressed and ported, and every
defaultable field concrete. -/
def ResolvedInvariant (c : Config) : Prop :=
  (c.Mode = "pool" ∨ c.Mode = "multi-port") ∧
  c.Nodes ≠ [] ∧
  (∀ n ∈ c.Nodes, n.Name ≠ "" ∧ n.URI ≠ "" ∧ n.Port ≠ 0) ∧
  c.Listener.Address ≠ "" ∧ c.Listener.Port ≠ 0 ∧
  c.Pool.Mode ≠ "" ∧ 0 < c.Pool.FailureThreshold ∧ 0 < c.Pool.BlacklistDuration ∧
  c.MultiPort.Address ≠ "" ∧ c.MultiPort.BasePort ≠ 0 ∧
  c.Management.Listen ≠ "" ∧ c.Management.ProbeTarget ≠ "" ∧
  c.Management.Enabled.isSome = true ∧
  c.LogLevel ≠ ""

/-- Modelled from the spec: the name-precedence chain exactly as the
specification words it — explicit trimmed name when non-empty, else the
decoded fragment when the URI parses with a non-empty fragment and decoding
succeeds, else the raw fragment, else the synthesized positional name. Used
only to compare against the code-derived `nodeName`. -/
def specNodeName (parse unescape : String → Option String) (n : NodeConfig) (idx : Nat) :
    String :=
  if trimSpace n.Name ≠ "" then trimSpace n.Name
  else
    match parse (trimSpace n.URI) with
    | some frag =>
      if frag ≠ "" then
        match unescape frag with
        | some d => d
        | none => frag
      else "node-" ++ toString idx
    | none => "node-" ++ toString idx

/-- Number of nodes that will consume a cursor slot. -/
def countZeroPorts (ns : List NodeConfig) : Nat :=
  ns.countP (fun n => n.Port == 0)

/-! Concrete instantiations of the external collaborators and concrete
configurations, used by the witnesses and counterexamples below. -/

/-- A file system with no readable file. -/
def fs0 : String → Option String := fun _ => none

/-- A URL parser that always fails. -/
def p0 : String → Option String := fun _ => none

/-- A query unescaper that decodes every string to itself. -/
def u0 : String → Option String := fun s => some s

/-- A concrete fragment extractor: the suffix after the first hash, or the
empty fragment when no hash occurs. -/
def pFragGo : List Char → Option (List Char)
  | [] => none
  | c :: rest => if c == '#' then some rest else pFragGo rest

/-- Fragment field of a parsed URL for the concrete parser. -/
def pFrag (s : String) : Option String :=
  match pFragGo s.data with
  | some cs => some (String.mk cs)
  | none => some ""

/-- A file system holding one nodes file with a comment and a blank line. -/
def fsD : String → Option String :=
  fun pth => if pth = "nodes.txt" then some "socks5://x:1\n# c\n\nsocks5://y:2" else none

/-- All-default listener section. -/
def emptyListener : ListenerConfig := ⟨"", 0, "", ""⟩

/-- All-default pool section. -/
def emptyPool : PoolConfig := ⟨"", 0, 0⟩

/-- All-default multi-port section. -/
def emptyMP : MultiPortConfig := ⟨"", 0, "", ""⟩

/-- All-default management section. -/
def emptyMgmt : ManagementConfig := ⟨none, "", ""⟩

/-- Two nodes without explicit ports, everything defaulted. -/
def cfgA : Config :=
  ⟨"", emptyListener, emptyMP, emptyPool, emptyMgmt,
    [⟨"", "a", 0, "", ""⟩, ⟨"", "b", 0, "", ""⟩], "", ""⟩

/-- The normalization result of `cfgA`. -/
def cfgARes : Config :=
  ⟨"pool", ⟨"0.0.0.0", 2323, "", ""⟩, ⟨"0.0.0.0", 28000, "", ""⟩,
    ⟨"sequential", 3, 86400000000000⟩, ⟨some true, "127.0.0.1:9090", "www.apple.com:80"⟩,
    [⟨"node-0", "a", 28000, "", ""⟩, ⟨"node-1", "b", 28001, "", ""⟩], "", "info"⟩

/-- Base port at the top of the uint16 range and two nodes without explicit
ports: the port cursor wraps around. -/
def cfgWrap : Config :=
  ⟨"", emptyListener, ⟨"", 65535, "", ""⟩, emptyPool, emptyMgmt,
    [⟨"", "a", 0, "", ""⟩, ⟨"", "b", 0, "", ""⟩], "", ""⟩

/-- The normalization result of `cfgWrap`: the second node ends with port 0. -/
def cfgWrapRes : Config :=
  ⟨"pool", ⟨"0.0.0.0", 2323, "", ""⟩, ⟨"0.0.0.0", 65535, "", ""⟩,
    ⟨"sequential", 3, 86400000000000⟩, ⟨some true, "127.0.0.1:9090", "www.apple.com:80"⟩,
    [⟨"node-0", "a", 65535, "", ""⟩, ⟨"node-1", "b", 0, "", ""⟩], "", "info"⟩

/-- One node whose name is whitespace and whose URI carries a fragment. -/
def cfgB : Config :=
  ⟨"", emptyListener, emptyMP, emptyPool, emptyMgmt,
    [⟨" ", "socks5://h:1#Alice", 0, "", ""⟩], "", ""⟩

/-- The normalization result of `cfgB` under `pFrag` and `u0`. -/
def cfgBRes : Config :=
  ⟨"pool", ⟨"0.0.0.0", 2323, "", ""⟩, ⟨"0.0.0.0", 28000, "", ""⟩,
    ⟨"sequential", 3, 86400000000000⟩, ⟨some true, "127.0.0.1:9090", "www.apple.com:80"⟩,
    [⟨"Alice", "socks5://h:1#Alice", 28000, "", ""⟩], "", "info"⟩

/-- Multi-port mode, multi-port credentials configured, one node with a
password but no username. -/
def cfgC : Config :=
  ⟨"multi-port", emptyListener, ⟨"", 0, "mu", "mp"⟩, emptyPool, emptyMgmt,
    [⟨"n1", "u1", 5, "", "pw"⟩], "", ""⟩

/-- The normalization result of `cfgC`: both credentials inherited, the
node's own password overwritten. -/
def cfgCRes : Config :=
  ⟨"multi-port", ⟨"0.0.0.0", 2323, "", ""⟩, ⟨"0.0.0.0", 28000, "mu", "mp"⟩,
    ⟨"sequential", 3, 86400000000000⟩, ⟨some true, "127.0.0.1:9090", "www.apple.com:80"⟩,
    [⟨"n1", "u1", 5, "mu", "mp"⟩], "", "info"⟩

/-- One inline node plus a configured nodes file. -/
def cfgD : Config :=
  ⟨"", emptyListener, emptyMP, emptyPool, emptyMgmt,
    [⟨"a", "u", 1, "", ""⟩], "nodes.txt", ""⟩

/-- The file-derived descriptors of `fsD`. -/
def fdD : List NodeConfig := [mkDescriptor "socks5://x:1", mkDescriptor "socks5://y:2"]

/-- No inline nodes and no nodes file. -/
def cfgE : Config :=
  ⟨"", emptyListener, emptyMP, emptyPool, emptyMgmt, [], "", ""⟩

/-- An explicit port equal to the initial cursor value followed by an
auto-assigned node: both resolve to the same port. -/
def cfgDup : Config :=
  ⟨"", emptyListener, emptyMP, emptyPool, emptyMgmt,
    [⟨"", "a", 28000, "", ""⟩, ⟨"", "b", 0, "", ""⟩], "", ""⟩

/-- A node with an explicit port, used to exercise one loop iteration. -/
def nodeX : NodeConfig := ⟨"n", "u", 7, "", ""⟩

/-! Lemmas. -/

lemma string_data_append (a b : String) : (a ++ b).data = a.data ++ b.data := by
  cases a; cases b; rfl

lemma node_dash_ne_empty (s : String) : "node-" ++ s ≠ "" := by
  intro h
  have h2 : ("node-" ++ s).data = "".data := congrArg String.data h
  rw [string_data_append] at h2
  exact absurd (List.append_eq_nil.mp h2).1 (by decide)

lemma nodeName_ne_empty (p u : String → Option String) (rawName uri : String) (idx : Nat) :
    nodeName p u rawName uri idx ≠ "" := by
  unfold nodeName
  split
  · split
    · exact node_dash_ne_empty _
    · assumption
  · assumption

lemma missing_uri_ne_emptyNodesErr (s : String) :
    ("node " ++ s) ++ " is missing uri" ≠ emptyNodesErr := by
  intro h
  have h2 : (("node " ++ s) ++ " is missing uri").data = emptyNodesErr.data :=
    congrArg String.data h
  rw [string_data_append, string_data_append] at h2
  have h3 : some 'n' = some 'c' := by
    calc some 'n' = (("node ".data ++ s.data) ++ " is missing uri".data).head? := rfl
    _ = emptyNodesErr.data.head? := by rw [h2]
    _ = some 'c' := rfl
  exact absurd (Option.some.inj h3) (by decide)

lemma normalizeMode_ok_cases {s m : String} (h : normalizeMode s = .ok m) :
    m = "pool" ∨ m = "multi-port" := by
  unfold normalizeMode at h
  split at h
  · exact Or.inl (Except.ok.inj h).symm
  · split at h
    · exact Or.inr (Except.ok.inj h).symm
    · split at h
      · rename_i hc
        cases hc with
        | inl hp => exact Or.inl (((Except.ok.inj h).symm).trans hp)
        | inr hp => exact Or.inr (((Except.ok.inj h).symm).trans hp)
      · exact absurd h (by simp)

lemma normalizeMode_bad {s : String} (h1 : s ≠ "") (h2 : s ≠ "multi_port")
    (h3 : s ≠ "pool") (h4 : s ≠ "multi-port") :
    normalizeMode s = .error ("unsupported mode " ++ s ++ " (use pool or multi-port)") := by
  unfold normalizeMode
  rw [if_neg h1, if_neg h2, if_neg (fun hc => hc.elim h3 h4)]

lemma nodesFrom_cons_ok {p u : String → Option String} {m : String} {mp : MultiPortConfig}
    {idx cur : Nat} {n : NodeConfig} {rest out}
    (h : normalizeNodesFrom p u m mp idx cur (n :: rest) = .ok out) :
    trimSpace n.URI ≠ "" ∧
      ∃ rest', normalizeNodesFrom p u m mp (idx + 1) (nextCursor cur n) rest = .ok rest' ∧
        out = resolveNode p u m mp idx cur n :: rest' := by
  by_cases hu : trimSpace n.URI = ""
  · simp [normalizeNodesFrom, normNode, hu] at h
  · refine ⟨hu, ?_⟩
    simp only [normalizeNodesFrom, normNode, if_neg hu] at h
    cases hr : normalizeNodesFrom p u m mp (idx + 1) (nextCursor cur n) rest with
    | error e => rw [hr] at h; simp at h
    | ok rest' => rw [hr] at h; simp at h; exact ⟨rest', rfl, h.symm⟩

lemma nodesFrom_err_shape {p u : String → Option String} {m : String} {mp : MultiPortConfig} :
    ∀ {ns : List NodeConfig} {idx cur : Nat} {e : String},
      normalizeNodesFrom p u m mp idx cur ns = .error e →
      ∃ s, e = ("node " ++ s) ++ " is missing uri" := by
  intro ns
  induction ns with
  | nil => intro idx cur e h; simp [normalizeNodesFrom] at h
  | cons n rest ih =>
    intro idx cur e h
    by_cases hu : trimSpace n.URI = ""
    · simp [normalizeNodesFrom, normNode, hu] at h
      exact ⟨toString idx, h.symm⟩
    · simp only [normalizeNodesFrom, normNode, if_neg hu] at h
      cases hr : normalizeNodesFrom p u m mp (idx + 1) (nextCursor cur n) rest with
      | error e2 => rw [hr] at h; simp at h; exact h ▸ ih hr
      | ok rest' => rw [hr] at h; simp at h

lemma nodesFrom_length {p u : String → Option String} {m : String} {mp : MultiPortConfig} :
    ∀ {ns : List NodeConfig} {idx cur : Nat} {out : List NodeConfig},
      normalizeNodesFrom p u m mp idx cur ns = .ok out → out.length = ns.length := by
  intro ns
  induction ns with
  | nil => intro idx cur out h; simp [normalizeNodesFrom] at h; simp [← h]
  | cons n rest ih =>
    intro idx cur out h
    obtain ⟨-, rest', hr, hout⟩ := nodesFrom_cons_ok h
    subst hout
    simp [ih hr]

lemma nodesFrom_name_uri {p u : String → Option String} {m : String} {mp : MultiPortConfig} :
    ∀ {ns : List NodeConfig} {idx cur : Nat} {out : List NodeConfig},
      normalizeNodesFrom p u m mp idx cur ns = .ok out →
      ∀ x ∈ out, x.Name ≠ "" ∧ x.URI ≠ "" := by
  intro ns
  induction ns with
  | nil => intro idx cur out h; simp [normalizeNodesFrom] at h; subst h; simp
  | cons n rest ih =>
    intro idx cur out h x hx
    obtain ⟨hu, rest', hr, hout⟩ := nodesFrom_cons_ok h
    subst hout
    cases hx with
    | head => exact ⟨nodeName_ne_empty p u n.Name (trimSpace n.URI) idx, hu⟩
    | tail _ hx2 => exact ih hr x hx2

lemma nodesFrom_ports_pos {p u : String → Option String} {m : String} {mp : MultiPortConfig} :
    ∀ {ns : List NodeConfig} {idx cur : Nat} {out : List NodeConfig},
      cur + countZeroPorts ns ≤ 65536 → (1 ≤ cur ∨ countZeroPorts ns = 0) →
      normalizeNodesFrom p u m mp idx cur ns = .ok out →
      ∀ x ∈ out, x.Port ≠ 0 := by
  intro ns
  induction ns with
  | nil => intro idx cur out _ _ h; simp [normalizeNodesFrom] at h; subst h; simp
  | cons n rest ih =>
    intro idx cur out hbound hpos h x hx
    obtain ⟨-, rest', hr, hout⟩ := nodesFrom_cons_ok h
    subst hout
    by_cases hz : n.Port = 0
    · have hcz : countZeroPorts (n :: rest) = countZeroPorts rest + 1 := by
        simp [countZeroPorts, hz]
      have hcur1 : 1 ≤ cur := by
        cases hpos with
        | inl hp => exact hp
        | inr hp => rw [hcz] at hp; omega
      have hnext : nextCursor cur n = (cur + 1) % 65536 := by simp [nextCursor, hz]
      cases hx with
      | head =>
        simp [resolveNode, hz]
        omega
      | tail _ hx2 =>
        by_cases hrz : countZeroPorts rest = 0
        · refine ih ?_ (Or.inr hrz) hr x hx2
          have : nextCursor cur n < 65536 := by rw [hnext]; exact Nat.mod_lt _ (by omega)
          omega
        · have hmod : (cur + 1) % 65536 = cur + 1 := by
            apply Nat.mod_eq_of_lt
            rw [hcz] at hbound
            omega
          refine ih ?_ (Or.inl ?_) hr x hx2
          · rw [hnext, hmod]; rw [hcz] at hbound; omega
          · rw [hnext, hmod]; omega
    · have hcz : countZeroPorts (n :: rest) = countZeroPorts rest := by
        simp [countZeroPorts, hz]
      have hnext : nextCursor cur n = cur := by simp [nextCursor, hz]
      cases hx with
      | head => simp [resolveNode, hz]
      | tail _ hx2 =>
        refine ih ?_ ?_ hr x hx2
        · rw [hnext]; omega
        · rw [hnext]; rw [hcz] at hpos; exact hpos

lemma nodesFrom_ports_all_zero {p u : String → Option String} {m : String} {mp : MultiPortConfig} :
    ∀ (ns : List NodeConfig) (idx cur : Nat) (out : List NodeConfig),
      (∀ n ∈ ns, n.Port = 0) → cur + ns.length ≤ 65536 →
      normalizeNodesFrom p u m mp idx cur ns = .ok out →
      out.map NodeConfig.Port = (List.range ns.length).map (fun i => cur + i) := by
  intro ns
  induction ns with
  | nil => intro idx cur out _ _ h; simp [normalizeNodesFrom] at h; subst h; simp
  | cons n rest ih =>
    intro idx cur out hz hbound h
    obtain ⟨-, rest', hr, hout⟩ := nodesFrom_cons_ok h
    subst hout
    have hz0 : n.Port = 0 := hz n (by simp)
    have hhead : (resolveNode p u m mp idx cur n).Port = cur := by simp [resolveNode, hz0]
    have hnext : nextCursor cur n = (cur + 1) % 65536 := by simp [nextCursor, hz0]
    cases rest with
    | nil =>
      have : rest' = [] := by
        have := nodesFrom_length hr
        simpa using List.length_eq_zero.mp (by simpa using this)
      subst this
      rw [show List.range [n].length = [0] from rfl]
      simp [hhead]
    | cons r rs =>
      have hmod : (cur + 1) % 65536 = cur + 1 := by
        apply Nat.mod_eq_of_lt
        simp at hbound
        omega
      rw [hnext, hmod] at hr
      have htail := ih idx.succ (cur + 1) rest' (fun x hx => hz x (by simp [hx])) (by simp at hbound ⊢; omega) hr
      have hgoal : (List.range ((r :: rs).length + 1)).map (fun i => cur + i)
          = cur :: (List.range ((r :: rs).length)).map (fun i => cur + 1 + i) := by
        rw [List.range_succ_eq_map, List.map_cons, List.map_map]
        congr 1
        apply List.map_congr_left
        intro i _
        simp [Function.comp]
        omega
      simp only [List.length_cons] at hgoal ⊢
      simp only [List.map_cons, hhead, htail]
      exact hgoal.symm

lemma nodesFrom_at {p u : String → Option String} {m : String} {mp : MultiPortConfig} :
    ∀ (ns : List NodeConfig) (idx cur : Nat) (out : List NodeConfig),
      normalizeNodesFrom p u m mp idx cur ns = .ok out →
      ∀ (i : Nat) (n : NodeConfig), ns[i]? = some n →
        ∃ cur2, (out[i]? = some (resolveNode p u m mp (idx + i) cur2 n)) := by
  intro ns
  induction ns with
  | nil => intro idx cur out h i n hi; simp at hi
  | cons hd rest ih =>
    intro idx cur out h i n hi
    obtain ⟨-, rest', hr, hout⟩ := nodesFrom_cons_ok h
    subst hout
    cases i with
    | zero =>
      simp at hi
      subst hi
      exact ⟨cur, by simp⟩
    | succ j =>
      simp at hi
      obtain ⟨cur2, hj⟩ := ih (idx + 1) (nextCursor cur hd) rest' hr j n hi
      refine ⟨cur2, ?_⟩
      simpa [Nat.add_comm, Nat.add_assoc, Nat.add_left_comm] using hj

lemma parseLines_eq (ls : List String) :
    parseLines ls = ((ls.map trimSpace).filter keepLine).map mkDescriptor := by
  induction ls with
  | nil => rfl
  | cons l rest ih =>
    simp only [parseLines, List.map_cons, List.filter_cons]
    cases hk : keepLine (trimSpace l) <;> simp [hk, ih]

lemma nodeName_eq_spec (p u : String → Option String)
    (hu : ∀ s, s ≠ "" → u s ≠ some "") (n : NodeConfig) (idx : Nat) :
    nodeName p u n.Name (trimSpace n.URI) idx = specNodeName p u n idx := by
  by_cases hn : trimSpace n.Name = ""
  · cases hp : p (trimSpace n.URI) with
    | none => simp [nodeName, specNodeName, fragmentName, hn, hp]
    | some frag =>
      by_cases hf : frag = ""
      · simp [nodeName, specNodeName, fragmentName, hn, hp, hf]
      · cases hd : u frag with
        | none => simp [nodeName, specNodeName, fragmentName, hn, hp, hf, hd]
        | some d =>
          have hdne : d ≠ "" := by
            intro hde
            exact hu frag hf (by rw [hd, hde])
          simp [nodeName, specNodeName, fragmentName, hn, hp, hf, hd, hdne]
  · simp [nodeName, specNodeName, hn]

lemma resolveListener_Address (l : ListenerConfig) : (resolveListener l).Address ≠ "" := by
  unfold resolveListener
  dsimp only
  split
  · decide
  · assumption

lemma resolveListener_Port (l : ListenerConfig) : (resolveListener l).Port ≠ 0 := by
  unfold resolveListener
  dsimp only
  split
  · decide
  · assumption

lemma resolvePool_Mode (p : PoolConfig) : (resolvePool p).Mode ≠ "" := by
  unfold resolvePool
  dsimp only
  split
  · decide
  · assumption

lemma resolvePool_FailureThreshold (p : PoolConfig) : 0 < (resolvePool p).FailureThreshold := by
  unfold resolvePool
  dsimp only
  split
  · decide
  · omega

lemma resolvePool_BlacklistDuration (p : PoolConfig) : 0 < (resolvePool p).BlacklistDuration := by
  unfold resolvePool
  dsimp only
  split
  · decide
  · omega

lemma resolveMultiPort_Address (m : MultiPortConfig) : (resolveMultiPort m).Address ≠ "" := by
  unfold resolveMultiPort
  dsimp only
  split
  · decide
  · assumption

lemma resolveMultiPort_BasePort (m : MultiPortConfig) : 1 ≤ (resolveMultiPort m).BasePort := by
  unfold resolveMultiPort
  dsimp only
  split
  · decide
  · omega

lemma resolveManagement_Listen (m : ManagementConfig) : (resolveManagement m).Listen ≠ "" := by
  unfold resolveManagement
  dsimp only
  split
  · decide
  · assumption

lemma resolveManagement_ProbeTarget (m : ManagementConfig) :
    (resolveManagement m).ProbeTarget ≠ "" := by
  unfold resolveManagement
  dsimp only
  split
  · decide
  · assumption

lemma resolveManagement_Enabled (m : ManagementConfig) :
    (resolveManagement m).Enabled.isSome = true := by
  unfold resolveManagement
  dsimp only
  cases m.Enabled <;> rfl

lemma normalize_mode_err {fs p u : String → Option String} {c : Config} {e : String}
    (h : normalizeMode c.Mode = .error e) : normalize fs p u c = .error e := by
  unfold normalize
  rw [h]

lemma normalize_ok_inv {fs p u : String → Option String} {c c' : Config}
    (h : normalize fs p u c = .ok c') :
    ∃ m merged nodes,
      normalizeMode c.Mode = .ok m ∧ mergeNodes fs c = .ok merged ∧ merged ≠ [] ∧
      normalizeNodesFrom p u m (resolveMultiPort c.MultiPort) 0
        (resolveMultiPort c.MultiPort).BasePort merged = .ok nodes ∧
      c' = { Mode := m, Listener := resolveListener c.Listener,
             MultiPort := resolveMultiPort c.MultiPort, Pool := resolvePool c.Pool,
             Management := resolveManagement c.Management, Nodes := nodes,
             NodesFile := c.NodesFile,
             LogLevel := if c.LogLevel = "" then "info" else c.LogLevel } := by
  unfold normalize at h
  split at h
  · exact absurd h (by simp)
  · rename_i m hm
    split at h
    · exact absurd h (by simp)
    · rename_i merged hg
      split at h
      · exact absurd h (by simp)
      · rename_i hne
        split at h
        · exact absurd h (by simp)
        · rename_i nodes hn
          exact ⟨m, merged, nodes, hm, hg, hne, hn, (Except.ok.inj h).symm⟩

lemma u0_sound : ∀ s, s ≠ "" → u0 s ≠ some "" := by
  intro s hs h
  exact hs (Option.some.inj h)

set_option maxRecDepth 10000 in
lemma normalize_cfgA : normalize fs0 p0 u0 cfgA = .ok cfgARes := rfl

set_option maxRecDepth 10000 in
lemma normalize_cfgWrap : normalize fs0 p0 u0 cfgWrap = .ok cfgWrapRes := rfl

set_option maxRecDepth 10000 in
lemma normalize_cfgB : normalize fs0 pFrag u0 cfgB = .ok cfgBRes := rfl

set_option maxRecDepth 10000 in
lemma normalize_cfgC : normalize fs0 p0 u0 cfgC = .ok cfgCRes := rfl

/-! Claims. -/

/-- C3: mode normalization — an empty mode resolves to pool, the multi_port
alias resolves to multi-port, the two canonical values are kept unchanged,
and any other non-empty value makes loading fail with a validation error
naming the offending value. -/
theorem claim_C3 (fs p u : String → Option String) (c : Config) :
    (c.Mode = "" → ∀ c', normalize fs p u c = .ok c' → c'.Mode = "pool") ∧
    (c.Mode = "multi_port" → ∀ c', normalize fs p u c = .ok c' → c'.Mode = "multi-port") ∧
    ((c.Mode = "pool" ∨ c.Mode = "multi-port") →
      ∀ c', normalize fs p u c = .ok c' → c'.Mode = c.Mode) ∧
    (c.Mode ≠ "" → c.Mode ≠ "multi_port" → c.Mode ≠ "pool" → c.Mode ≠ "multi-port" →
      normalize fs p u c = .error ("unsupported mode " ++ c.Mode ++ " (use pool or multi-port)")) := by
  refine ⟨?_, ?_, ?_, ?_⟩
  · intro hmode c' hok
    obtain ⟨m, merged, nodes, hm, -, -, -, hc⟩ := normalize_ok_inv hok
    subst hc
    rw [hmode] at hm
    have : (Except.ok "pool" : Except String String) = Except.ok m := hm
    exact (Except.ok.inj this).symm
  · intro hmode c' hok
    obtain ⟨m, merged, nodes, hm, -, -, -, hc⟩ := normalize_ok_inv hok
    subst hc
    rw [hmode] at hm
    have : (Except.ok "multi-port" : Except String String) = Except.ok m := hm
    exact (Except.ok.inj this).symm
  · intro hmode c' hok
    obtain ⟨m, merged, nodes, hm, -, -, -, hc⟩ := normalize_ok_inv hok
    subst hc
    cases hmode with
    | inl hp =>
      rw [hp] at hm ⊢
      have : (Except.ok "pool" : Except String String) = Except.ok m := hm
      exact (Except.ok.inj this).symm
    | inr hp =>
      rw [hp] at hm ⊢
      have : (Except.ok "multi-port" : Except String String) = Except.ok m := hm
      exact (Except.ok.inj this).symm
  · intro h1 h2 h3 h4
    exact normalize_mode_err (normalizeMode_bad h1 h2 h3 h4)

/-- C3 witness: the all-default configuration resolves to pool mode. -/
theorem claim_C3_witness : cfgARes.Mode = "pool" :=
  (claim_C3 fs0 p0 u0 cfgA).1 rfl cfgARes normalize_cfgA

/-- C6: the merged node list is the inline list followed by the file-derived
list when a nodes file is configured, and the inline list alone otherwise. -/
theorem claim_C6 (fs : String → Option String) (c : Config) (F : List NodeConfig) :
    (c.NodesFile ≠ "" → loadNodesFromFile fs c.NodesFile = .ok F →
      mergeNodes fs c = .ok (c.Nodes ++ F)) ∧
    (c.NodesFile = "" → mergeNodes fs c = .ok c.Nodes) := by
  constructor
  · intro h1 h2
    unfold mergeNodes
    rw [if_pos h1, h2]
  · intro h1
    unfold mergeNodes
    rw [if_neg (by simp [h1])]

/-- C6 witness: one inline node plus a two-descriptor nodes file merge in
order, inline first. -/
theorem claim_C6_witness : mergeNodes fsD cfgD = .ok (cfgD.Nodes ++ fdD) :=
  (claim_C6 fsD cfgD fdD).1 (by decide) rfl

/-- C7: given a valid mode and a successful merge, normalization returns the
empty-node-list error exactly when the merged list is empty. -/
theorem claim_C7 (fs p u : String → Option String) (c : Config) (m : String)
    (merged : List NodeConfig) (hm : normalizeMode c.Mode = .ok m)
    (hg : mergeNodes fs c = .ok merged) :
    (normalize fs p u c = .error emptyNodesErr ↔ merged = []) := by
  constructor
  · intro h
    by_contra hne
    unfold normalize at h
    rw [hm, hg] at h
    dsimp only at h
    rw [if_neg hne] at h
    cases hn : normalizeNodesFrom p u m (resolveMultiPort c.MultiPort) 0
        (resolveMultiPort c.MultiPort).BasePort merged with
    | error e =>
      rw [hn] at h
      obtain ⟨s, hs⟩ := nodesFrom_err_shape hn
      have he : e = emptyNodesErr := by simpa using h
      exact missing_uri_ne_emptyNodesErr s (by rw [← hs, he])
    | ok nodes =>
      rw [hn] at h
      simp at h
  · intro h
    unfold normalize
    rw [hm, hg]
    dsimp only
    rw [if_pos h]

/-- C7 witness: an empty inline list with no nodes file fails with the
empty-node-list error. -/
theorem claim_C7_witness : normalize fs0 p0 u0 cfgE = .error emptyNodesErr :=
  (claim_C7 fs0 p0 u0 cfgE "pool" [] rfl rfl).mpr rfl

/-- C8: the node-file parser trims every line, keeps exactly the lines that
are neither empty nor hash comments after trimming, and maps each kept line
to one descriptor with only the URI set, in file order. -/
theorem claim_C8 (fs : String → Option String) (path data : String) (h : fs path = some data) :
    loadNodesFromFile fs path =
      .ok ((((splitNl data).map trimSpace).filter keepLine).map mkDescriptor) := by
  unfold loadNodesFromFile
  rw [h]
  dsimp only
  rw [parseLines_eq]

/-- C8 witness: a file with one comment line and one blank line yields
exactly its two URI lines as descriptors. -/
theorem claim_C8_witness :
    loadNodesFromFile fsD "nodes.txt" =
      .ok ((((splitNl "socks5://x:1\n# c\n\nsocks5://y:2").map trimSpace).filter
        keepLine).map mkDescriptor) :=
  claim_C8 fsD "nodes.txt" "socks5://x:1\n# c\n\nsocks5://y:2" rfl

/-- C9: the port cursor is left unchanged by any node with an explicit
(nonzero) port, which keeps its port; consequently resolved ports can
collide — an explicit 28000 followed by an auto-assigned node yields
ports 28000, 28000. -/
theorem claim_C9 :
    (∀ (p u : String → Option String) (m : String) (mp : MultiPortConfig)
        (idx cur : Nat) (n : NodeConfig) (out : NodeConfig × Nat),
        n.Port ≠ 0 → normNode p u m mp idx cur n = .ok out →
        out.2 = cur ∧ out.1.Port = n.Port) ∧
    Except.map (fun r => r.Nodes.map NodeConfig.Port) (normalize fs0 p0 u0 cfgDup)
      = .ok [28000, 28000] := by
  constructor
  · intro p u m mp idx cur n out hz h
    unfold normNode at h
    split at h
    · exact absurd h (by simp)
    · have hpair := Except.ok.inj h
      subst hpair
      constructor
      · simp [nextCursor, hz]
      · simp [resolveNode, hz]
  · rfl

/-- C9 witness: one loop iteration on a node with explicit port 7 at cursor
99 keeps both the cursor and the port. -/
theorem claim_C9_witness :
    nodeX.Port ≠ 0 ∧
      ((resolveNode p0 u0 "pool" emptyMP 0 99 nodeX, nextCursor 99 nodeX).2 = 99 ∧
        (resolveNode p0 u0 "pool" emptyMP 0 99 nodeX, nextCursor 99 nodeX).1.Port = nodeX.Port) :=
  ⟨by decide,
    claim_C9.1 p0 u0 "pool" emptyMP 0 99 nodeX
      (resolveNode p0 u0 "pool" emptyMP 0 99 nodeX, nextCursor 99 nodeX) (by decide) rfl⟩

/-- C10: ManagementEnabled returns true when the management enabled flag is
absent and otherwise returns exactly the stored boolean; it is a pure, total
function of the configuration. -/
theorem claim_C10 (c : Config) :
    (c.Management.Enabled = none → ManagementEnabled c = true) ∧
    (∀ b, c.Management.Enabled = some b → ManagementEnabled c = b) := by
  constructor
  · intro h
    simp [ManagementEnabled, h]
  · intro b h
    simp [ManagementEnabled, h]

/-- C10 witness: with the flag absent, ManagementEnabled is true. -/
theorem claim_C10_witness : ManagementEnabled cfgE = true :=
  (claim_C10 cfgE).1 rfl

/-- C1 counterexample: with the configured base port 65535 and two nodes
without explicit ports, loading succeeds but the uint16 port cursor wraps, so
the resolved ports are 65535, 0 rather than the contiguous increasing
sequence 65535, 65536 the claim asserts. -/
theorem claim_C1_cex :
    Except.map (fun r => r.Nodes.map NodeConfig.Port) (normalize fs0 p0 u0 cfgWrap)
        = .ok [65535, 0] ∧
      (∀ n ∈ cfgWrap.Nodes, n.Port = 0) ∧ cfgWrap.NodesFile = "" ∧
      [65535, 0] ≠ (List.range cfgWrap.Nodes.length).map
        (fun i => (resolveMultiPort cfgWrap.MultiPort).BasePort + i) := by
  refine ⟨?_, by decide, rfl, by decide⟩
  rw [normalize_cfgWrap]
  rfl

/-- C1 (amended): when loading succeeds, no merged node has an explicit port,
and the base port plus the node count does not exceed 65536 (so the uint16
port cursor cannot wrap), the resolved ports form the contiguous increasing
sequence base, base+1, ... in merged-list order, where base is the configured
multi-port base port or 28000 when that is zero — in any mode. -/
theorem claim_C1 (fs p u : String → Option String) (c c' : Config) (merged : List NodeConfig)
    (hok : normalize fs p u c = .ok c') (hg : mergeNodes fs c = .ok merged)
    (hz : ∀ n ∈ merged, n.Port = 0)
    (hbound : (resolveMultiPort c.MultiPort).BasePort + merged.length ≤ 65536) :
    c'.Nodes.map NodeConfig.Port
      = (List.range merged.length).map
          (fun i => (resolveMultiPort c.MultiPort).BasePort + i) := by
  obtain ⟨m, merged2, nodes, hm, hg2, hne, hn, hc⟩ := normalize_ok_inv hok
  have hmeq : merged = merged2 := Except.ok.inj (hg.symm.trans hg2)
  subst hmeq
  subst hc
  exact nodesFrom_ports_all_zero merged 0 (resolveMultiPort c.MultiPort).BasePort nodes
    hz hbound hn

/-- C1 witness: two nodes with defaulted base port resolve to
ports 28000, 28001. -/
theorem claim_C1_witness :
    cfgARes.Nodes.map NodeConfig.Port
      = (List.range cfgA.Nodes.length).map
          (fun i => (resolveMultiPort cfgA.MultiPort).BasePort + i) :=
  claim_C1 fs0 p0 u0 cfgA cfgARes cfgA.Nodes normalize_cfgA rfl (by decide) (by decide)

/-- C2 counterexample: the wraparound configuration loads successfully but
its second node resolves to port 0, so the ResolvedConfig invariant fails. -/
theorem claim_C2_cex :
    normalize fs0 p0 u0 cfgWrap = .ok cfgWrapRes ∧ ¬ ResolvedInvariant cfgWrapRes := by
  refine ⟨normalize_cfgWrap, ?_⟩
  intro h
  obtain ⟨-, -, hnodes, -⟩ := h
  exact (hnodes ⟨"node-1", "b", 0, "", ""⟩ (by decide)).2.2 rfl

/-- C2 (amended): when normalization succeeds and the resolved base port plus
the number of merged nodes without an explicit port does not exceed 65536 (so
the uint16 port cursor cannot wrap to zero), the result satisfies the full
ResolvedConfig invariant: canonical mode, non-empty node list, every node
named, with URI and nonzero port, and every defaultable field concrete. -/
theorem claim_C2 (fs p u : String → Option String) (c c' : Config) (merged : List NodeConfig)
    (hok : normalize fs p u c = .ok c') (hg : mergeNodes fs c = .ok merged)
    (hbound : (resolveMultiPort c.MultiPort).BasePort + countZeroPorts merged ≤ 65536) :
    ResolvedInvariant c' := by
  obtain ⟨m, merged2, nodes, hm, hg2, hne, hn, hc⟩ := normalize_ok_inv hok
  have hmeq : merged = merged2 := Except.ok.inj (hg.symm.trans hg2)
  subst hmeq
  subst hc
  refine ⟨normalizeMode_ok_cases hm, ?_, ?_, resolveListener_Address _, resolveListener_Port _,
    resolvePool_Mode _, resolvePool_FailureThreshold _, resolvePool_BlacklistDuration _,
    resolveMultiPort_Address _, ?_, resolveManagement_Listen _, resolveManagement_ProbeTarget _,
    resolveManagement_Enabled _, ?_⟩
  · show nodes ≠ []
    intro hnil
    apply hne
    have hl := nodesFrom_length hn
    rw [hnil] at hl
    exact List.length_eq_zero.mp hl.symm
  · show ∀ n ∈ nodes, n.Name ≠ "" ∧ n.URI ≠ "" ∧ n.Port ≠ 0
    intro x hx
    refine ⟨(nodesFrom_name_uri hn x hx).1, (nodesFrom_name_uri hn x hx).2, ?_⟩
    exact nodesFrom_ports_pos hbound (Or.inl (resolveMultiPort_BasePort _)) hn x hx
  · show (resolveMultiPort c.MultiPort).BasePort ≠ 0
    have := resolveMultiPort_BasePort c.MultiPort
    omega
  · show (if c.LogLevel = "" then "info" else c.LogLevel) ≠ ""
    split
    · decide
    · assumption

/-- C2 witness: the all-default two-node configuration satisfies the
ResolvedConfig invariant after normalization. -/
theorem claim_C2_witness : ResolvedInvariant cfgARes :=
  claim_C2 fs0 p0 u0 cfgA cfgARes cfgA.Nodes normalize_cfgA rfl (by decide)

/-- C4: given that unescaping a non-empty string never yields the empty
string (true of url.QueryUnescape, here a hypothesis on the abstracted
unescaper), every node of the merged list resolves to the name given by the
precedence chain: explicit trimmed name, else decoded fragment, else raw
fragment, else the positional node-i name. -/
theorem claim_C4 (fs p u : String → Option String) (c c' : Config) (merged : List NodeConfig)
    (hu : ∀ s, s ≠ "" → u s ≠ some "")
    (hok : normalize fs p u c = .ok c') (hg : mergeNodes fs c = .ok merged) :
    ∀ (i : Nat) (n : NodeConfig), merged[i]? = some n →
      (c'.Nodes[i]?).map NodeConfig.Name = some (specNodeName p u n i) := by
  obtain ⟨m, merged2, nodes, hm, hg2, hne, hn, hc⟩ := normalize_ok_inv hok
  have hmeq : merged = merged2 := Except.ok.inj (hg.symm.trans hg2)
  subst hmeq
  subst hc
  intro i n hi
  obtain ⟨cur2, hat⟩ := nodesFrom_at merged 0 (resolveMultiPort c.MultiPort).BasePort nodes hn i n hi
  show (nodes[i]?).map NodeConfig.Name = some (specNodeName p u n i)
  rw [hat]
  have hname : (resolveNode p u m (resolveMultiPort c.MultiPort) (0 + i) cur2 n).Name
      = specNodeName p u n i := by
    simp only [resolveNode, Nat.zero_add]
    exact nodeName_eq_spec p u hu n i
  rw [Option.map_some', hname]

/-- C4 witness: a node with whitespace name and a URI fragment resolves to
the fragment-derived name. -/
theorem claim_C4_witness :
    (cfgBRes.Nodes[0]?).map NodeConfig.Name
      = some (specNodeName pFrag u0 ⟨" ", "socks5://h:1#Alice", 0, "", ""⟩ 0) :=
  claim_C4 fs0 pFrag u0 cfgB cfgBRes cfgB.Nodes u0_sound normalize_cfgB rfl 0
    ⟨" ", "socks5://h:1#Alice", 0, "", ""⟩ rfl

/-- C5: a node inherits the multi-port credentials (username and password
together, the password unconditionally alongside the username) exactly when
the resolved mode is multi-port and its username is empty; otherwise both
credentials are kept unchanged — in particular pool mode never modifies
them. -/
theorem claim_C5 (fs p u : String → Option String) (c c' : Config) (merged : List NodeConfig)
    (hok : normalize fs p u c = .ok c') (hg : mergeNodes fs c = .ok merged) :
    ∀ (i : Nat) (n : NodeConfig), merged[i]? = some n →
      ((c'.Mode = "multi-port" ∧ n.Username = "") →
        (c'.Nodes[i]?).map NodeConfig.Username = some c.MultiPort.Username ∧
        (c'.Nodes[i]?).map NodeConfig.Password = some c.MultiPort.Password) ∧
      (¬(c'.Mode = "multi-port" ∧ n.Username = "") →
        (c'.Nodes[i]?).map NodeConfig.Username = some n.Username ∧
        (c'.Nodes[i]?).map NodeConfig.Password = some n.Password) := by
  obtain ⟨m, merged2, nodes, hm, hg2, hne, hn, hc⟩ := normalize_ok_inv hok
  have hmeq : merged = merged2 := Except.ok.inj (hg.symm.trans hg2)
  subst hmeq
  subst hc
  intro i n hi
  obtain ⟨cur2, hat⟩ := nodesFrom_at merged 0 (resolveMultiPort c.MultiPort).BasePort nodes hn i n hi
  constructor
  · intro hcond
    have hc1 : m = "multi-port" := hcond.1
    have hc2 : n.Username = "" := hcond.2
    constructor
    · show (nodes[i]?).map NodeConfig.Username = some c.MultiPort.Username
      rw [hat, Option.map_some']
      simp [resolveNode, hc1, hc2, resolveMultiPort]
    · show (nodes[i]?).map NodeConfig.Password = some c.MultiPort.Password
      rw [hat, Option.map_some']
      simp [resolveNode, hc1, hc2, resolveMultiPort]
  · intro hcond
    have hcond2 : ¬(m = "multi-port" ∧ n.Username = "") := hcond
    constructor
    · show (nodes[i]?).map NodeConfig.Username = some n.Username
      rw [hat, Option.map_some']
      simp [resolveNode, if_neg hcond2]
    · show (nodes[i]?).map NodeConfig.Password = some n.Password
      rw [hat, Option.map_some']
      simp [resolveNode, if_neg hcond2]

/-- C5 witness: in multi-port mode a node with a password but no username
has both credentials replaced by the multi-port defaults. -/
theorem claim_C5_witness :
    (cfgCRes.Nodes[0]?).map NodeConfig.Username = some cfgC.MultiPort.Username ∧
      (cfgCRes.Nodes[0]?).map NodeConfig.Password = some cfgC.MultiPort.Password :=
  (claim_C5 fs0 p0 u0 cfgC cfgCRes cfgC.Nodes normalize_cfgC rfl 0
    ⟨"n1", "u1", 5, "", "pw"⟩ rfl).1 ⟨rfl, rfl⟩

end EasyProxies
